import Mathlib

/-!
Shallow embedding of the table-normalization and period-comparison engine of
the Vehicle-Registration-Data-Dashboard repository (`src/app.py`), together
with theorems settling the specification claims about it.

Modelling conventions:
* machine floats are modelled as rationals (`ℚ`); the claims under study are
  about branch structure and exact zero tests, not float rounding;
* pandas `to_numeric(..., errors=coerce).fillna(0).astype(int)` is modelled by
  a parser for optionally signed numerals (sign, digits, optional decimal
  point, optional scientific exponent, surrounding spaces) and for the
  case-insensitive `inf`/`infinity` literals; unparseable cells (and `nan`
  literals, which are NaN all the same) become `0` through `fillna(0)`; the
  float-to-int cast truncates finite values toward zero (`Int.tdiv` on
  numerator and denominator) and raises on infinities; float range and
  precision limits are not modelled, per the rational-number convention;
* a pandas `DataFrame` whose columns were renamed by `get_data` is modelled as
  a `NormalizedTable`: the header list plus one `(key, values)` pair per row;
* `st.info` / `st.warning` outcomes ("data not available") are modelled by
  explicit constructors, and an uncaught `ValueError` from a column-length
  mismatch in `df.columns = [...]` is modelled by `GetDataResult.raisesValueError`.
-/

namespace Vahan

/-! ### Cell coercion (app.py line 140) -/

/-- Strip leading and trailing space characters, as the numeric parser
underlying `pd.to_numeric` does. -/
def trimSpaces (cs : List Char) : List Char :=
  ((cs.dropWhile (fun c => c == ' ')).reverse.dropWhile (fun c => c == ' ')).reverse

/-- Value of a digit string, most significant first. -/
def digitsVal (cs : List Char) : Nat :=
  cs.foldl (fun a c => a * 10 + (c.toNat - 48)) 0

/-- An unsigned mantissa: digits with an optional single decimal point, at
least one digit overall, in the way the pandas parser accepts `"12"`,
`"12.5"`, `"12."` or `".5"`. -/
def parseMantissa (cs : List Char) : Option ℚ :=
  match cs.splitOn '.' with
  | [ip] =>
      if !ip.isEmpty && ip.all Char.isDigit then some ((digitsVal ip : ℚ))
      else none
  | [ip, fp] =>
      if (!ip.isEmpty || !fp.isEmpty) && ip.all Char.isDigit && fp.all Char.isDigit then
        some ((digitsVal ip : ℚ) + (digitsVal fp : ℚ) / ((10 : ℚ) ^ fp.length))
      else none
  | _ => none

/-- The exponent after an `e`/`E`: an optional sign followed by at least one
digit. -/
def parseExponent (cs : List Char) : Option Int :=
  match cs with
  | '-' :: rest =>
      if !rest.isEmpty && rest.all Char.isDigit then some (-(digitsVal rest : Int)) else none
  | '+' :: rest =>
      if !rest.isEmpty && rest.all Char.isDigit then some ((digitsVal rest : Int)) else none
  | _ =>
      if !cs.isEmpty && cs.all Char.isDigit then some ((digitsVal cs : Int)) else none

/-- An unsigned numeral as accepted by the pandas parser
(`precise_xstrtod`): a mantissa with an optional scientific exponent, e.g.
`"1e3"`, `"1.5E-2"`. -/
def parseUnsignedNumeric (cs : List Char) : Option ℚ :=
  match cs.span (fun c => !(c == 'e' || c == 'E')) with
  | (mant, []) => parseMantissa mant
  | (mant, _ :: expPart) =>
      match parseMantissa mant, parseExponent expPart with
      | some m, some e => some (m * (10 : ℚ) ^ e)
      | _, _ => none

/-- The case-insensitive `inf` / `infinity` literals the pandas parser
recognises. -/
def isInfLiteral (cs : List Char) : Bool :=
  cs.map Char.toLower == ['i', 'n', 'f'] ||
    cs.map Char.toLower == ['i', 'n', 'f', 'i', 'n', 'i', 't', 'y']

/-- A value `pd.to_numeric` can return for one cell: a finite number or a
signed infinity.  The NaN of an unparseable cell (or of a `nan` literal,
which ends up NaN all the same) is `none` at the call sites. -/
inductive NumValue where
  | finite (q : ℚ)
  | posInf
  | negInf
deriving DecidableEq, Repr

/-- Parse an optionally signed numeral or infinity literal. -/
def parseSigned (cs : List Char) : Option NumValue :=
  match cs with
  | [] => none
  | c :: rest =>
      if c == '-' then
        if isInfLiteral rest then some .negInf
        else (parseUnsignedNumeric rest).map (fun q => .finite (-q))
      else if c == '+' then
        if isInfLiteral rest then some .posInf
        else (parseUnsignedNumeric rest).map (fun q => .finite q)
      else
        if isInfLiteral cs then some .posInf
        else (parseUnsignedNumeric cs).map (fun q => .finite q)

/-- Model of `pd.to_numeric(cell.replace(",", ""), errors="coerce")`:
commas are stripped first (the explicit `str.replace(",", "")` in
`get_data`), then the cell is parsed as a number — finite, infinite, or the
NaN (`none`) produced for unparseable text. -/
def toNumericCell (s : String) : Option NumValue :=
  parseSigned (trimSpaces (s.data.filter (fun c => !(c == ','))))

/-- Truncation toward zero, the behaviour of the `astype(int)` cast on a
finite value. -/
def truncRat (q : ℚ) : Int :=
  Int.tdiv q.num (q.den : Int)

/-- Full coercion of one cell (app.py line 140):
`pd.to_numeric(str(cell).replace(",", ""), errors="coerce").fillna(0).astype(int)`.
`fillna(0)` turns the NaN of an unparseable cell into `0`; a finite value is
truncated toward zero; an infinity survives `fillna(0)` and makes
`astype(int)` raise `IntCastingNaNError` (a `ValueError`), modelled as
`none`. -/
def coerceCell (s : String) : Option Int :=
  match toNumericCell s with
  | some (.finite q) => some (truncRat q)
  | some .posInf => none
  | some .negInf => none
  | none => some 0

/-! ### Table normalization (`get_data`, app.py lines 87-142) -/

/-- A raw table as returned by `pd.read_html`: rectangular grid of string
cells.  `ncols` is the column count pandas inferred for the grid (pandas
keeps the column count even for a table with no rows). -/
structure RawTable where
  ncols : Nat
  rows : List (List String)
deriving DecidableEq, Repr

/-- Vehicle-type filter (sidebar selection). -/
inductive VehicleType where
  | twoWheeler
  | threeWheeler
  | fourWheeler
deriving DecidableEq, Repr

/-- The four table types of the sidebar; vehicle type is present exactly for
the non-month-wise ones, mirroring the widget logic of app.py lines 52-63. -/
inductive SelectionContext where
  | vehicleClass (vt : VehicleType)
  | manufacturer (vt : VehicleType)
  | categoryMonthly
  | manufacturerMonthly
deriving DecidableEq, Repr

/-- The `month_names` list of app.py. -/
def monthNames : List String :=
  ["Jan", "Feb", "Mar", "Apr", "May", "Jun",
   "Jul", "Aug", "Sep", "Oct", "Nov", "Dec"]

/-- Whether the context is one of the two month-wise table types. -/
def SelectionContext.isMonthly : SelectionContext → Bool
  | .categoryMonthly => true
  | .manufacturerMonthly => true
  | _ => false

/-- The fixed header assigned by `get_data` for the non-month-wise table
types (app.py lines 113-126); `none` for the month-wise types. -/
def fixedHeader : SelectionContext → Option (List String)
  | .manufacturer .twoWheeler => some ["Manufacturer", "2WIC", "2WN", "2WT", "TOTAL"]
  | .manufacturer .threeWheeler => some ["Manufacturer", "3WN", "3WT", "TOTAL"]
  | .manufacturer .fourWheeler => some ["Manufacturer", "4WIC", "LMV", "MMV", "HMV", "TOTAL"]
  | .vehicleClass .twoWheeler => some ["Class", "2WIC", "2WN", "2WT", "TOTAL"]
  | .vehicleClass .threeWheeler => some ["Class", "3WN", "3WT", "TOTAL"]
  | .vehicleClass .fourWheeler => some ["Class", "4WIC", "LMV", "MMV", "HMV", "TOTAL"]
  | .categoryMonthly => none
  | .manufacturerMonthly => none

/-- Result of computing the month-wise header (app.py lines 128-135):
`num_months = len(df.columns) - 2`; positive means a header is built from the
first `num_months` month abbreviations, otherwise `get_data` returns the
empty `pd.DataFrame()`. -/
inductive ColumnAssignment where
  | ok (names : List String)
  | emptyResult
deriving DecidableEq, Repr

/-- Month-wise header construction for a post-drop column count `n`. -/
def monthlyColumns (keyName : String) (n : Nat) : ColumnAssignment :=
  if 2 < n then .ok (keyName :: (monthNames.take (n - 2) ++ ["TOTAL"]))
  else .emptyResult

/-- The header `get_data` tries to assign, given the post-drop column count
`n` (mirrors the `if table_type == ...` chain of app.py lines 113-135). -/
def assignedColumns (ctx : SelectionContext) (n : Nat) : ColumnAssignment :=
  match ctx with
  | .vehicleClass .twoWheeler => .ok ["Class", "2WIC", "2WN", "2WT", "TOTAL"]
  | .vehicleClass .threeWheeler => .ok ["Class", "3WN", "3WT", "TOTAL"]
  | .vehicleClass .fourWheeler => .ok ["Class", "4WIC", "LMV", "MMV", "HMV", "TOTAL"]
  | .manufacturer .twoWheeler => .ok ["Manufacturer", "2WIC", "2WN", "2WT", "TOTAL"]
  | .manufacturer .threeWheeler => .ok ["Manufacturer", "3WN", "3WT", "TOTAL"]
  | .manufacturer .fourWheeler => .ok ["Manufacturer", "4WIC", "LMV", "MMV", "HMV", "TOTAL"]
  | .categoryMonthly => monthlyColumns "Category" n
  | .manufacturerMonthly => monthlyColumns "Manufacturer" n

/-- `idx = 5 if len(tables) > 5 else len(tables) - 1` (app.py line 108). -/
def selectIdx (n : Nat) : Nat :=
  if 5 < n then 5 else n - 1

/-- The working table `tables[idx]` selected by `get_data`. -/
def selectTable (tables : List RawTable) : RawTable :=
  tables.getD (selectIdx tables.length) ⟨0, []⟩

/-- A normalized table: the assigned header (key column name first) and one
`(key, numeric values)` pair per source row. -/
structure NormalizedTable where
  header : List String
  rows : List (String × List Int)
deriving DecidableEq, Repr

/-- Outcome of `get_data`: a populated table, the empty `pd.DataFrame()`
(zero rows, zero columns), or an uncaught `ValueError`: either from the
`df.columns = [...]` assignment when the name list length differs from the
column count, or the `IntCastingNaNError` (a `ValueError` subclass) that
`astype(int)` raises when a coerced column contains an infinity. -/
inductive GetDataResult where
  | ok (t : NormalizedTable)
  | noData
  | raisesValueError
deriving DecidableEq, Repr

/-- Model of `get_data` (app.py lines 87-142) after the source file has been
resolved to its list of raw tables: select the working table, drop the first
(artifact) column, assign the context-determined header, and coerce every
column except column 0 to integers. -/
def get_data (tables : List RawTable) (ctx : SelectionContext) : GetDataResult :=
  if tables.isEmpty then .noData
  else
    match assignedColumns ctx ((selectTable tables).ncols - 1) with
    | .ok names =>
        if names.length = (selectTable tables).ncols - 1 then
          if (selectTable tables).rows.all
              (fun r => (r.drop 2).all (fun s => (coerceCell s).isSome)) then
            .ok ⟨names, (selectTable tables).rows.map
              (fun r => ((r.drop 1).headD "", (r.drop 2).map (fun s => (coerceCell s).getD 0)))⟩
          else .raisesValueError
        else .raisesValueError
    | .emptyResult => .noData

/-- How the source path resolved (app.py `load_tables`, lines 14-30):
the path may not exist, `pd.read_html` may fail to find tables, or a list of
tables is returned. -/
inductive SourceResolution where
  | missingPath
  | parseFailure
  | tables (ts : List RawTable)
deriving DecidableEq, Repr

/-- `load_tables`: every failure mode collapses to the empty list. -/
def load_tables : SourceResolution → List RawTable
  | .missingPath => []
  | .parseFailure => []
  | .tables ts => ts

/-- `get_data` as reached from a source path. -/
def getDataFromSource (src : SourceResolution) (ctx : SelectionContext) : GetDataResult :=
  get_data (load_tables src) ctx

/-! ### Column access on normalized tables -/

/-- `colName in df.columns`. -/
def NormalizedTable.hasCol (t : NormalizedTable) (name : String) : Bool :=
  t.header.contains name

/-- `df[colName]` for one row: the header position of `colName` (position 0 is
the key column), shifted into the numeric value list. -/
def NormalizedTable.colVal (t : NormalizedTable) (name : String) (r : String × List Int) : Int :=
  match t.header.findIdx? (fun c => c == name) with
  | some (i + 1) => r.2.getD i 0
  | _ => 0

/-- `df[[key_col, col]]` as a keyed column: one `(category, value)` pair per
row. -/
def NormalizedTable.keyed (t : NormalizedTable) (col : String) : List (String × Int) :=
  t.rows.map (fun r => (r.1, t.colVal col r))

/-! ### Percentage-change cells (app.py lines 195-199 and analogues) -/

/-- A value of a derived change column: either the em-dash sentinel emitted
for a zero baseline, or a percentage that the app renders with
`f"{value:.2f}%"`.  The rational carries the exact value being formatted. -/
inductive ChangeCell where
  | sentinel
  | pct (value : ℚ)
deriving DecidableEq, Repr

/-- One row of a change column:
`f"{(curr - prev) / prev * 100:.2f}%" if prev != 0 else sentinel`. -/
def changeCell (curr prev : Int) : ChangeCell :=
  if prev ≠ 0 then .pct (((curr : ℚ) - (prev : ℚ)) / (prev : ℚ) * 100) else .sentinel

/-- The overall growth value of the `st.metric` deltas (app.py lines 206, 270
and 420): note the `else 0` branch, used when the previous-period total is
zero. -/
def overallChange (currTotal prevTotal : Int) : ℚ :=
  if prevTotal ≠ 0 then ((currTotal : ℚ) - (prevTotal : ℚ)) / (prevTotal : ℚ) * 100 else 0

/-! ### The MoM / YoM / YoY comparison tables -/

/-- One row of a displayed comparison table. -/
structure CompRow where
  key : String
  prev : Int
  curr : Int
  change : ChangeCell
deriving DecidableEq, Repr

/-- Outcome of one comparison section: either the `st.info` "not available"
path, or the displayed table with its two totals and the overall-growth
metric delta. -/
inductive CompareOutcome where
  | unavailable
  | table (rows : List CompRow) (currTotal prevTotal : Int) (overall : ChangeCell)
deriving DecidableEq, Repr

/-- Rows of a comparison table from `(key, prev, curr)` triples. -/
def compRows (pairs : List (String × Int × Int)) : List CompRow :=
  pairs.map (fun p => ⟨p.1, p.2.1, p.2.2, changeCell p.2.2 p.2.1⟩)

/-- Shared shape of the MoM, YoM and YoY sections: per-row change column via
`changeCell`, column totals via sums, overall metric delta always a formatted
percentage of `overallChange` (never the sentinel). -/
def compTable (pairs : List (String × Int × Int)) : CompareOutcome :=
  let currTotal := (pairs.map (fun p => p.2.2)).sum
  let prevTotal := (pairs.map (fun p => p.2.1)).sum
  .table (compRows pairs) currTotal prevTotal (.pct (overallChange currTotal prevTotal))

/-- Keys of the rows of a comparison outcome. -/
def CompareOutcome.rowKeys : CompareOutcome → List String
  | .unavailable => []
  | .table rows _ _ _ => rows.map (fun r => r.key)

/-- Month-over-Month comparison (app.py lines 185-235), for a selected month
other than January: take the previous and selected month columns from the
same table; if either is absent, report unavailability (`st.info`). -/
def momCompare (t : NormalizedTable) (selMonth : String) : CompareOutcome :=
  let mIdx := monthNames.findIdx (fun m => m == selMonth)
  let prevMonth := monthNames.getD (mIdx - 1) ""
  if t.hasCol prevMonth && t.hasCol selMonth then
    compTable (t.rows.map (fun r => (r.1, t.colVal prevMonth r, t.colVal selMonth r)))
  else .unavailable

/-- The rows the outer merge produces for one left row `p`: one row per
right row whose key is string-equal to `p`'s key, or a single row whose
right-hand value is the 0 that `fillna(0)` puts in place of NaN. -/
def joinMatches (right : List (String × Int)) (p : String × Int) : List (String × Int × Int) :=
  let ms := right.filter (fun q => q.1 == p.1)
  if ms.isEmpty then [(p.1, p.2, 0)]
  else ms.map (fun q => (p.1, p.2, q.2))

/-- Model of `pd.merge(left, right, on=key_col, how="outer")` followed by
`fillna(0)`, on single-value keyed columns: each left row is paired with
every right row having a string-equal key (0 when none), and right rows whose
key matches no left key are appended with 0 on the left.  The claims proved
about this join are order-independent, so the key ordering pandas produces is
not modelled. -/
def outerJoin (left right : List (String × Int)) : List (String × Int × Int) :=
  (left.flatMap (joinMatches right)) ++
  ((right.filter (fun q => left.all (fun p => !(p.1 == q.1)))).map (fun q => (q.1, 0, q.2)))

/-- Year-over-Month comparison for January (app.py lines 237-299): outer join
of the current-year `Jan` column with the previous-year `Dec` column; if
either column is absent, report unavailability (`st.info`). -/
def yomCompare (t prevT : NormalizedTable) : CompareOutcome :=
  if t.hasCol "Jan" && prevT.hasCol "Dec" then
    compTable ((outerJoin (t.keyed "Jan") (prevT.keyed "Dec")).map (fun j => (j.1, j.2.2, j.2.1)))
  else .unavailable

/-- The column the YoY section compares (app.py lines 387-396): the selected
month when one is selected, not "All", and present in both tables; otherwise
the `TOTAL` column. -/
def yoyDataCol (t prevT : NormalizedTable) (selMonth : Option String) : String :=
  match selMonth with
  | some m => if !(m == "All") && t.hasCol m && prevT.hasCol m then m else "TOTAL"
  | none => "TOTAL"

/-- Year-over-Year comparison (app.py lines 377-446), reached when the
previous-year table is non-empty: outer join of the chosen data column of the
two years. -/
def yoyCompare (t prevT : NormalizedTable) (selMonth : Option String) : CompareOutcome :=
  let dc := yoyDataCol t prevT selMonth
  compTable ((outerJoin (t.keyed dc) (prevT.keyed dc)).map (fun j => (j.1, j.2.2, j.2.1)))

/-! ### Quarter-over-Quarter (app.py lines 304-373) -/

/-- The `quarter_months` dictionary. -/
def quarterDefs : List (String × List String) :=
  [("Q1 (Jan-Mar)", ["Jan", "Feb", "Mar"]),
   ("Q2 (Apr-Jun)", ["Apr", "May", "Jun"]),
   ("Q3 (Jul-Sep)", ["Jul", "Aug", "Sep"]),
   ("Q4 (Oct-Dec)", ["Oct", "Nov", "Dec"])]

/-- The `calculated_quarters` list: quarters whose `existing_months` filter is
non-empty, in `quarter_months` order. -/
def includedQuarters (t : NormalizedTable) : List (String × List String) :=
  quarterDefs.filter (fun q => !((q.2.filter (fun m => t.hasCol m)).isEmpty))

/-- `df[existing_months].sum(axis=1)` for one row: the quarter value is the
sum of the constituent month columns present in the table. -/
def quarterValue (t : NormalizedTable) (months : List String) (r : String × List Int) : Int :=
  ((months.filter (fun m => t.hasCol m)).map (fun m => t.colVal m r)).sum

/-- Outcome of the QoQ section: monthly columns absent entirely, fewer than
two included quarters (`st.info("Not enough quarter data ...")`), or the
quarter columns plus the change columns of consecutive included quarters. -/
inductive QoQOutcome where
  | noMonthly
  | insufficient
  | table (quarterCols : List (String × List Int))
      (changes : List (String × String × List ChangeCell))
deriving DecidableEq, Repr

/-- The QoQ section: build one column per included quarter, then for
`i in range(1, len(calculated_quarters))` a change column comparing
`calculated_quarters[i]` against `calculated_quarters[i-1]`. -/
def qoq (t : NormalizedTable) : QoQOutcome :=
  if monthNames.any (fun m => t.hasCol m) then
    if 1 < (includedQuarters t).length then
      .table
        ((includedQuarters t).map (fun q => (q.1, t.rows.map (fun r => quarterValue t q.2 r))))
        ((List.range ((includedQuarters t).length - 1)).map (fun j =>
          (((includedQuarters t).getD (j + 1) ("", [])).1,
            ((includedQuarters t).getD j ("", [])).1,
            t.rows.map (fun r => changeCell
              (quarterValue t ((includedQuarters t).getD (j + 1) ("", [])).2 r)
              (quarterValue t ((includedQuarters t).getD j ("", [])).2 r)))))
    else .insufficient
  else .noMonthly

/-- The delta of the "Latest QoQ Growth" metric (app.py lines 360-367): the
value of the last change column at the FIRST row (`.iloc[0]`), with the
sentinel when the table is empty. -/
def qoqLatestDelta (t : NormalizedTable) : ChangeCell :=
  match qoq t with
  | .table _ changes =>
      match changes.getLast? with
      | some c => c.2.2.headD .sentinel
      | none => .sentinel
  | _ => .sentinel

end Vahan

namespace Vahan

/-! ### Helper lemmas about truncation -/

theorem truncRat_of_nonneg {q : ℚ} (h : 0 ≤ q) : truncRat q = ⌊q⌋ := by
  rw [truncRat, Rat.floor_def,
    Int.tdiv_eq_ediv (Rat.num_nonneg.mpr h) (Int.natCast_nonneg _)]

theorem truncRat_neg (q : ℚ) : truncRat (-q) = -truncRat q := by
  simp [truncRat, Rat.neg_num, Rat.neg_den, Int.neg_tdiv]

theorem truncRat_nonneg {q : ℚ} (h : 0 ≤ q) : 0 ≤ truncRat q :=
  Int.tdiv_nonneg (Rat.num_nonneg.mpr h) (Int.natCast_nonneg _)

/-! ### Helper lemmas about `get_data` -/

theorem assignedColumns_of_fixedHeader {ctx : SelectionContext} {names : List String}
    (h : fixedHeader ctx = some names) (n : Nat) : assignedColumns ctx n = .ok names := by
  cases ctx with
  | vehicleClass vt => cases vt <;> simp_all [fixedHeader, assignedColumns]
  | manufacturer vt => cases vt <;> simp_all [fixedHeader, assignedColumns]
  | categoryMonthly => simp [fixedHeader] at h
  | manufacturerMonthly => simp [fixedHeader] at h

theorem get_data_eq_of_assigned {tables : List RawTable} {ctx : SelectionContext}
    {names : List String} (hne : tables ≠ [])
    (h : assignedColumns ctx ((selectTable tables).ncols - 1) = .ok names) :
    get_data tables ctx =
      (if names.length = (selectTable tables).ncols - 1 then
        (if (selectTable tables).rows.all
            (fun r => (r.drop 2).all (fun s => (coerceCell s).isSome)) then
          .ok ⟨names, (selectTable tables).rows.map
            (fun r => ((r.drop 1).headD "", (r.drop 2).map (fun s => (coerceCell s).getD 0)))⟩
        else .raisesValueError)
      else .raisesValueError) := by
  rw [get_data]
  simp only [List.isEmpty_iff, hne, if_false, h]

theorem get_data_monthly_noData {tables : List RawTable} {ctx : SelectionContext}
    (hne : tables ≠ []) (hm : ctx.isMonthly = true)
    (hle : (selectTable tables).ncols ≤ 3) : get_data tables ctx = .noData := by
  have hn : ¬ (2 < (selectTable tables).ncols - 1) := by omega
  cases ctx with
  | vehicleClass vt => simp [SelectionContext.isMonthly] at hm
  | manufacturer vt => simp [SelectionContext.isMonthly] at hm
  | categoryMonthly =>
      rw [get_data]
      simp only [List.isEmpty_iff, hne, if_false, assignedColumns, monthlyColumns, if_neg hn]
  | manufacturerMonthly =>
      rw [get_data]
      simp only [List.isEmpty_iff, hne, if_false, assignedColumns, monthlyColumns, if_neg hn]

/-! ### Claim theorems -/

/-- C8: for every non-empty sequence of raw tables, the working table used by
`get_data` is the one at index 5 when more than 5 tables are present, and
otherwise the last table of the sequence. -/
theorem C8_selects_sixth_or_last (tables : List RawTable) (h : tables ≠ []) :
    (5 < tables.length → selectTable tables = tables.getD 5 ⟨0, []⟩)
    ∧ (tables.length ≤ 5 → some (selectTable tables) = tables.getLast?) := by
  constructor
  · intro h5
    simp [selectTable, selectIdx, if_pos h5]
  · intro h5
    rw [List.getLast?_eq_getElem?, selectTable, selectIdx, if_neg (by omega),
      List.getD_eq_getElem?_getD,
      List.getElem?_eq_getElem (Nat.sub_lt (List.length_pos.mpr h) one_pos)]
    rfl

/-- Witness for C8 at a concrete two-table input. -/
theorem C8_witness :
    some (selectTable [⟨2, []⟩, ⟨3, []⟩]) = ([⟨2, []⟩, ⟨3, []⟩] : List RawTable).getLast? :=
  (C8_selects_sixth_or_last [⟨2, []⟩, ⟨3, []⟩] (by decide)).2 (by decide)

/-- C9: an unresolvable source path, a source that yields zero raw tables, and
a Monthly selection whose inferred month count is not positive all surface
identically as the empty no-data result, with no exception. -/
theorem C9_no_data_conditions (ctx : SelectionContext) :
    getDataFromSource .missingPath ctx = .noData
    ∧ getDataFromSource .parseFailure ctx = .noData
    ∧ getDataFromSource (.tables []) ctx = .noData
    ∧ (∀ tables, tables ≠ [] → ctx.isMonthly = true →
        (selectTable tables).ncols ≤ 3 → get_data tables ctx = .noData) := by
  refine ⟨rfl, rfl, rfl, fun tables hne hm hle => ?_⟩
  exact get_data_monthly_noData hne hm hle

/-- Witness for C9: a concrete monthly table with too few columns. -/
theorem C9_witness :
    get_data [⟨3, [["1", "X", "2"]]⟩] .categoryMonthly = GetDataResult.noData :=
  (C9_no_data_conditions .categoryMonthly).2.2.2 [⟨3, [["1", "X", "2"]]⟩]
    (by decide) (by decide) (by decide)

/-- C10: for a Monthly selection whose chosen raw table still has more than 14
columns after the artifact column is dropped, `get_data` raises (the month
list is capped at 12 names, so the assigned header is shorter than the column
count), rather than returning an empty table. -/
theorem C10_monthly_overflow_raises (tables : List RawTable) (ctx : SelectionContext)
    (hne : tables ≠ []) (hm : ctx.isMonthly = true)
    (hgt : 14 < (selectTable tables).ncols - 1) :
    get_data tables ctx = .raisesValueError := by
  have h12 : monthNames.length = 12 := by decide
  have hlen : ∀ key : String,
      ¬ ((key :: (monthNames.take ((selectTable tables).ncols - 1 - 2) ++ ["TOTAL"])).length =
        (selectTable tables).ncols - 1) := by
    intro key
    simp only [List.length_cons, List.length_append, List.length_take, List.length_nil, h12]
    omega
  cases ctx with
  | vehicleClass vt => simp [SelectionContext.isMonthly] at hm
  | manufacturer vt => simp [SelectionContext.isMonthly] at hm
  | categoryMonthly =>
      rw [get_data]
      simp only [List.isEmpty_iff, hne, if_false, assignedColumns, monthlyColumns,
        if_pos (by omega : 2 < (selectTable tables).ncols - 1)]
      rw [if_neg (hlen "Category")]
  | manufacturerMonthly =>
      rw [get_data]
      simp only [List.isEmpty_iff, hne, if_false, assignedColumns, monthlyColumns,
        if_pos (by omega : 2 < (selectTable tables).ncols - 1)]
      rw [if_neg (hlen "Manufacturer")]

/-- Witness for C10: a 16-column raw table (15 columns after the drop). -/
theorem C10_witness :
    get_data [⟨16, []⟩] .manufacturerMonthly = GetDataResult.raisesValueError :=
  C10_monthly_overflow_raises [⟨16, []⟩] .manufacturerMonthly
    (by decide) (by decide) (by decide)

/-- C3 counterexample: a Manufacturer/TwoWheeler raw table with 4 columns
(3 after the drop, against the 5 expected names) makes `get_data` raise an
uncaught ValueError, which is distinct from the empty no-data result the
claim requires. -/
theorem C3_counterexample :
    get_data [⟨4, [["1", "A", "2", "3"]]⟩] (.manufacturer .twoWheeler) = .raisesValueError
    ∧ GetDataResult.raisesValueError ≠ GetDataResult.noData := by
  decide

/-- C3 (amended): a column-count mismatch for a fixed-header table type makes
`get_data` raise an uncaught ValueError at the column assignment; only the
Monthly table types with an inferred month count of zero or less return the
empty table. -/
theorem C3_mismatch_behaviour (tables : List RawTable) (ctx : SelectionContext)
    (names : List String) (hne : tables ≠ []) :
    (fixedHeader ctx = some names → names.length ≠ (selectTable tables).ncols - 1 →
      get_data tables ctx = .raisesValueError)
    ∧ (ctx.isMonthly = true → (selectTable tables).ncols ≤ 3 →
      get_data tables ctx = .noData) := by
  constructor
  · intro hf hlen
    rw [get_data_eq_of_assigned hne (assignedColumns_of_fixedHeader hf _), if_neg hlen]
  · intro hm hle
    exact get_data_monthly_noData hne hm hle

/-- Witness for C3: the amended behaviour at the counterexample input. -/
theorem C3_witness :
    get_data [⟨4, [["1", "B", "2", "3"]]⟩] (.vehicleClass .twoWheeler) =
      GetDataResult.raisesValueError :=
  (C3_mismatch_behaviour [⟨4, [["1", "B", "2", "3"]]⟩] (.vehicleClass .twoWheeler)
    ["Class", "2WIC", "2WN", "2WT", "TOTAL"] (by decide)).1 (by decide) (by decide)

/-- C1 counterexample: a MoM comparison whose previous-month column is all
zeros. Every per-row change is the sentinel, but the overall-growth metric
delta is the formatted percentage of `0` ("0.00%"), not the sentinel the
claim requires for a zero baseline. -/
theorem C1_counterexample :
    momCompare ⟨["Category", "Jan", "Feb", "TOTAL"], [("X", [0, 5, 5])]⟩ "Feb" =
      .table [⟨"X", 0, 5, .sentinel⟩] 5 0 (.pct 0)
    ∧ ChangeCell.pct 0 ≠ ChangeCell.sentinel := by
  decide

/-- C1 (amended): with a zero baseline every per-row change cell is the
sentinel (this holds for the MoM/YoM/YoY row builder and for the QoQ cells,
which all use `changeCell`), but the aggregate metric delta of the
MoM/YoM/YoY sections is always a formatted percentage — equal to 0, not the
sentinel, when the previous-period total is 0 — and no comparison divides by
the zero baseline. -/
theorem C1_zero_baseline (pairs : List (String × Int × Int)) :
    (∀ curr : Int, changeCell curr 0 = .sentinel)
    ∧ (∀ r ∈ compRows pairs, r.prev = 0 → r.change = .sentinel)
    ∧ (∀ rows ct pt ov, compTable pairs = .table rows ct pt ov →
        ov ≠ .sentinel ∧ (pt = 0 → ov = .pct 0)) := by
  refine ⟨fun curr => by simp [changeCell], ?_, ?_⟩
  · intro r hr h0
    rcases List.mem_map.mp hr with ⟨p, hp, rfl⟩
    simp only at h0
    simp [changeCell, h0]
  · intro rows ct pt ov hov
    simp only [compTable, CompareOutcome.table.injEq] at hov
    rcases hov with ⟨-, -, hpt, hov⟩
    constructor
    · rw [← hov]
      simp
    · intro h0
      rw [← hov, hpt, h0]
      simp [overallChange]

/-- Witness for C1 at concrete inputs. -/
theorem C1_witness :
    (⟨"A", 0, 7, changeCell 7 0⟩ : CompRow).change = ChangeCell.sentinel :=
  (C1_zero_baseline [("A", 0, 7)]).2.1 ⟨"A", 0, 7, changeCell 7 0⟩ (by simp [compRows]) rfl

/-- C4 counterexample: a YoY comparison with selected month "Feb" where
neither year has a "Feb" column. Instead of the explicit unavailable state
the claim requires, the code silently substitutes the TOTAL column and
produces a numeric comparison. -/
theorem C4_counterexample :
    yoyDataCol ⟨["Category", "Jan", "TOTAL"], [("X", [7, 10])]⟩
      ⟨["Category", "Jan", "TOTAL"], [("X", [3, 8])]⟩ (some "Feb") = "TOTAL"
    ∧ yoyCompare ⟨["Category", "Jan", "TOTAL"], [("X", [7, 10])]⟩
        ⟨["Category", "Jan", "TOTAL"], [("X", [3, 8])]⟩ (some "Feb") =
        .table [⟨"X", 8, 10, .pct 25⟩] 10 8 (.pct 25)
    ∧ yoyCompare ⟨["Category", "Jan", "TOTAL"], [("X", [7, 10])]⟩
        ⟨["Category", "Jan", "TOTAL"], [("X", [3, 8])]⟩ (some "Feb") ≠ .unavailable := by
  have hdc : yoyDataCol ⟨["Category", "Jan", "TOTAL"], [("X", [7, 10])]⟩
      ⟨["Category", "Jan", "TOTAL"], [("X", [3, 8])]⟩ (some "Feb") = "TOTAL" := by decide
  have hpairs :
      (outerJoin ((⟨["Category", "Jan", "TOTAL"], [("X", [7, 10])]⟩ : NormalizedTable).keyed
          "TOTAL")
        ((⟨["Category", "Jan", "TOTAL"], [("X", [3, 8])]⟩ : NormalizedTable).keyed
          "TOTAL")).map (fun j => (j.1, j.2.2, j.2.1)) = [("X", 8, 10)] := by decide
  refine ⟨hdc, ?_, ?_⟩
  · rw [yoyCompare]
    rw [hdc, hpairs]
    simp only [compTable, compRows, List.map_cons, List.map_nil, List.sum_cons, List.sum_nil,
      CompareOutcome.table.injEq]
    norm_num [changeCell, overallChange]
  · rw [yoyCompare, hdc, hpairs]
    simp [compTable]

/-- C4 (amended): the MoM comparison and the January YoM comparison surface a
missing required column as the explicit unavailable state, never a crash or a
zeroed row; the YoY comparison, however, never reports unavailability for a
missing month column — when the selected month is absent from either side it
silently falls back to comparing the TOTAL column. -/
theorem C4_missing_column (t p : NormalizedTable) (sm : String) :
    ((t.hasCol (monthNames.getD ((monthNames.findIdx (fun m => m == sm)) - 1) "") = false
        ∨ t.hasCol sm = false) → momCompare t sm = .unavailable)
    ∧ ((t.hasCol "Jan" = false ∨ p.hasCol "Dec" = false) → yomCompare t p = .unavailable)
    ∧ (sm ≠ "All" → (t.hasCol sm = false ∨ p.hasCol sm = false) →
        yoyDataCol t p (some sm) = "TOTAL")
    ∧ (∀ om : Option String, yoyCompare t p om ≠ .unavailable) := by
  refine ⟨?_, ?_, ?_, ?_⟩
  · intro h
    rw [momCompare]
    rcases h with h | h <;> simp only [List.getD_eq_getElem?_getD] at h ⊢ <;> simp [h]
  · intro h
    rw [yomCompare]
    rcases h with h | h <;> simp [h]
  · intro hall h
    rw [yoyDataCol]
    rcases h with h | h <;> simp [h]
  · intro om
    rw [yoyCompare]
    simp [compTable]

/-- Witness for C4 at a concrete input. -/
theorem C4_witness :
    momCompare ⟨["Category", "Feb", "TOTAL"], [("X", [5, 5])]⟩ "Feb" =
      CompareOutcome.unavailable :=
  (C4_missing_column ⟨["Category", "Feb", "TOTAL"], [("X", [5, 5])]⟩
    ⟨["Category"], []⟩ "Feb").1 (Or.inl (by decide))

/-- C7 counterexample: the "Latest QoQ Growth" metric delta is the FIRST
ROW of the last change column, not the percentage-change formula applied to
the quarter column sums. Here the first row grows 100 percent while the
column sums grow by 100/101 percent. -/
theorem C7_counterexample :
    qoq ⟨["Category", "Jan", "Apr", "TOTAL"], [("X", [1, 2, 3]), ("Y", [100, 100, 200])]⟩ =
      .table [("Q1 (Jan-Mar)", [1, 100]), ("Q2 (Apr-Jun)", [2, 100])]
        [("Q2 (Apr-Jun)", "Q1 (Jan-Mar)", [changeCell 2 1, changeCell 100 100])]
    ∧ qoqLatestDelta
        ⟨["Category", "Jan", "Apr", "TOTAL"], [("X", [1, 2, 3]), ("Y", [100, 100, 200])]⟩ =
        .pct 100
    ∧ changeCell 2 1 = .pct 100
    ∧ overallChange ([2, 100] : List Int).sum ([1, 100] : List Int).sum ≠ 100 := by
  have hcq : includedQuarters ⟨["Category", "Jan", "Apr", "TOTAL"],
      [("X", [1, 2, 3]), ("Y", [100, 100, 200])]⟩ =
      [("Q1 (Jan-Mar)", ["Jan", "Feb", "Mar"]), ("Q2 (Apr-Jun)", ["Apr", "May", "Jun"])] := by
    decide
  have hv1X : quarterValue ⟨["Category", "Jan", "Apr", "TOTAL"],
      [("X", [1, 2, 3]), ("Y", [100, 100, 200])]⟩ ["Jan", "Feb", "Mar"] ("X", [1, 2, 3]) = 1 := by
    decide
  have hv1Y : quarterValue ⟨["Category", "Jan", "Apr", "TOTAL"],
      [("X", [1, 2, 3]), ("Y", [100, 100, 200])]⟩ ["Jan", "Feb", "Mar"]
      ("Y", [100, 100, 200]) = 100 := by decide
  have hv2X : quarterValue ⟨["Category", "Jan", "Apr", "TOTAL"],
      [("X", [1, 2, 3]), ("Y", [100, 100, 200])]⟩ ["Apr", "May", "Jun"] ("X", [1, 2, 3]) = 2 := by
    decide
  have hv2Y : quarterValue ⟨["Category", "Jan", "Apr", "TOTAL"],
      [("X", [1, 2, 3]), ("Y", [100, 100, 200])]⟩ ["Apr", "May", "Jun"]
      ("Y", [100, 100, 200]) = 100 := by decide
  have hq : qoq ⟨["Category", "Jan", "Apr", "TOTAL"],
      [("X", [1, 2, 3]), ("Y", [100, 100, 200])]⟩ =
      .table [("Q1 (Jan-Mar)", [1, 100]), ("Q2 (Apr-Jun)", [2, 100])]
        [("Q2 (Apr-Jun)", "Q1 (Jan-Mar)", [changeCell 2 1, changeCell 100 100])] := by
    rw [qoq, if_pos (by decide)]
    simp +decide [hcq, hv1X, hv1Y, hv2X, hv2Y, show List.range 1 = [0] from by decide]
  have hc : changeCell 2 1 = .pct 100 := by
    rw [changeCell, if_pos (by decide)]
    norm_num
  refine ⟨hq, ?_, hc, ?_⟩
  · rw [qoqLatestDelta, hq]
    simp [hc]
  · rw [overallChange]
    norm_num

/-- C7 (amended): the overall metric delta of the MoM, January-YoM and YoY
sections is the percentage-change formula applied to the column sums of the
compared table (given a non-zero previous total), never an average of the
per-row percentages; but the "Latest QoQ Growth" delta of the QoQ section
instead reuses the first row of the last per-row change column. -/
theorem C7_overall_from_sums (pairs : List (String × Int × Int))
    (h : (pairs.map (fun p => p.2.1)).sum ≠ 0) :
    compTable pairs = .table (compRows pairs)
      ((pairs.map (fun p => p.2.2)).sum) ((pairs.map (fun p => p.2.1)).sum)
      (.pct (((((pairs.map (fun p => p.2.2)).sum : Int) : ℚ) -
          (((pairs.map (fun p => p.2.1)).sum : Int) : ℚ))
        / (((pairs.map (fun p => p.2.1)).sum : Int) : ℚ) * 100))
    ∧ (∀ t cols changes c, qoq t = .table cols changes → changes.getLast? = some c →
        qoqLatestDelta t = c.2.2.headD .sentinel) := by
  constructor
  · have hov : overallChange ((pairs.map (fun p => p.2.2)).sum)
        ((pairs.map (fun p => p.2.1)).sum) =
        ((((pairs.map (fun p => p.2.2)).sum : Int) : ℚ) -
            (((pairs.map (fun p => p.2.1)).sum : Int) : ℚ))
          / (((pairs.map (fun p => p.2.1)).sum : Int) : ℚ) * 100 := by
      rw [overallChange, if_pos h]
    simp only [compTable, hov]
  · intro t cols changes c hqoq hlast
    simp only [qoqLatestDelta, hqoq, hlast]

/-- Membership in the space-trimmed list implies membership in the source. -/
theorem mem_of_mem_trimSpaces {c : Char} {cs : List Char} (h : c ∈ trimSpaces cs) : c ∈ cs := by
  rw [trimSpaces, List.mem_reverse] at h
  have h1 := (List.dropWhile_sublist (fun c => c == ' ')).subset h
  rw [List.mem_reverse] at h1
  exact (List.dropWhile_sublist (fun c => c == ' ')).subset h1

/-- An unsigned mantissa parses to a non-negative rational. -/
theorem parseMantissa_nonneg {cs : List Char} {q : ℚ}
    (h : parseMantissa cs = some q) : 0 ≤ q := by
  rw [parseMantissa] at h
  split at h
  · split at h
    · obtain rfl := Option.some_inj.mp h
      exact Nat.cast_nonneg _
    · exact absurd h (by simp)
  · split at h
    · obtain rfl := Option.some_inj.mp h
      positivity
    · exact absurd h (by simp)
  · exact absurd h (by simp)

/-- An unsigned numeral (mantissa with optional exponent) parses to a
non-negative rational. -/
theorem parseUnsignedNumeric_nonneg {cs : List Char} {q : ℚ}
    (h : parseUnsignedNumeric cs = some q) : 0 ≤ q := by
  rw [parseUnsignedNumeric] at h
  split at h
  · exact parseMantissa_nonneg h
  · split at h
    case h_1 m e hm he =>
      obtain rfl := Option.some_inj.mp h
      exact mul_nonneg (parseMantissa_nonneg hm) (zpow_nonneg (by norm_num) e)
    case h_2 => exact absurd h (by simp)

/-- A cell without a minus sign never parses to a negative finite value. -/
theorem toNumericCell_nonneg {s : String} {q : ℚ}
    (hno : ∀ c ∈ s.data, c ≠ '-') (h : toNumericCell s = some (.finite q)) : 0 ≤ q := by
  rw [toNumericCell] at h
  have hmem : ∀ c ∈ trimSpaces (s.data.filter (fun c => !(c == ','))), c ≠ '-' := by
    intro c hc
    exact hno c (List.mem_filter.mp (mem_of_mem_trimSpaces hc)).1
  rcases hcs : trimSpaces (s.data.filter (fun c => !(c == ','))) with _ | ⟨c, rest⟩ <;>
    rw [hcs] at h
  · exact absurd h (by simp [parseSigned])
  · rw [parseSigned] at h
    rw [if_neg (by simpa using hmem c (hcs ▸ List.mem_cons_self c rest))] at h
    split at h
    · split at h
      · exact absurd h (by simp)
      · rcases Option.map_eq_some'.mp h with ⟨q2, hq2, hfin⟩
        obtain rfl := NumValue.finite.inj hfin
        exact parseUnsignedNumeric_nonneg hq2
    · split at h
      · exact absurd h (by simp)
      · rcases Option.map_eq_some'.mp h with ⟨q2, hq2, hfin⟩
        obtain rfl := NumValue.finite.inj hfin
        exact parseUnsignedNumeric_nonneg hq2

/-- The rows of every table `get_data` returns are built by `coerceCell`,
and every cell of every returned row coerced successfully (no infinities). -/
theorem get_data_rows {tables : List RawTable} {ctx : SelectionContext} {t : NormalizedTable}
    (hok : get_data tables ctx = .ok t) :
    t.rows = (selectTable tables).rows.map
      (fun r => ((r.drop 1).headD "", (r.drop 2).map (fun s => (coerceCell s).getD 0)))
    ∧ (selectTable tables).rows.all
        (fun r => (r.drop 2).all (fun s => (coerceCell s).isSome)) = true := by
  rw [get_data] at hok
  split at hok
  · exact absurd hok (by simp)
  · split at hok
    · split at hok
      · split at hok
        · obtain rfl := GetDataResult.ok.inj hok
          exact ⟨rfl, by assumption⟩
        · exact absurd hok (by simp)
      · exact absurd hok (by simp)
    · exact absurd hok (by simp)

/-- C2 counterexample: the coercion parses signed, fractional and
scientific numerals, so a cell `"-5"` coerces to the negative value `-5`
(falsifying non-negativity), `"3.7"` truncates to `3` and `"1e3"` evaluates
to `1000` rather than coercing to `0` (falsifying parse-as-integer-else-0);
and the coercion is not total: an `"inf"` cell parses to infinity, survives
`fillna(0)`, and makes `astype(int)` raise, so the full pipeline raises an
uncaught error instead of returning a table. -/
theorem C2_counterexample :
    coerceCell "-5" = some (-5) ∧ ¬ (0 ≤ (-5 : Int))
    ∧ coerceCell "3.7" = some 3
    ∧ coerceCell "1e3" = some 1000
    ∧ coerceCell "inf" = none
    ∧ get_data [⟨5, [["1", "Cat", "-5", "inf", "x"]]⟩] .categoryMonthly =
        .raisesValueError := by
  refine ⟨by decide, by decide, ?_, ?_, by decide, by decide⟩
  · have h : trimSpaces ((String.data "3.7").filter (fun c => !(c == ','))) =
        ['3', '.', '7'] := by decide
    have hspan : List.span (fun c => !(c == 'e' || c == 'E')) ['3', '.', '7'] =
        (['3', '.', '7'], []) := by decide
    have h2 : List.splitOn '.' ['3', '.', '7'] = [['3'], ['7']] := by decide
    simp +decide only [coerceCell, toNumericCell, h, parseSigned, parseUnsignedNumeric,
      hspan, parseMantissa, h2]
    rw [show digitsVal ['3'] = 3 from by decide, show digitsVal ['7'] = 7 from by decide]
    rw [show ((3 : Nat) : ℚ) + ((7 : Nat) : ℚ) / 10 ^ List.length ['7'] = 37 / 10 from by
      norm_num]
    simp only [if_true, if_false, Option.map_some', Option.some.injEq]
    rw [truncRat_of_nonneg (by norm_num), Int.floor_eq_iff]
    all_goals norm_num
  · have h : trimSpaces ((String.data "1e3").filter (fun c => !(c == ','))) =
        ['1', 'e', '3'] := by decide
    have hspan : List.span (fun c => !(c == 'e' || c == 'E')) ['1', 'e', '3'] =
        (['1'], ['e', '3']) := by decide
    have hm : parseMantissa ['1'] = some 1 := by decide
    have he : parseExponent ['3'] = some 3 := by decide
    simp +decide only [coerceCell, toNumericCell, h, parseSigned, parseUnsignedNumeric,
      hspan, hm, he, if_true, if_false, Option.map_some', Option.some.injEq]
    rw [truncRat_of_nonneg (by norm_num), Int.floor_eq_iff]
    all_goals norm_num

/-- C2 (amended): the cell coercion strips commas; any cell that parses to
NaN (blank or non-numeric text) coerces through `fillna(0)` to exactly `0`;
a finite numeral — possibly signed, fractional or scientific — truncates
toward zero (so values can be negative, and fractional or exponent numerals
do not coerce to 0), though every successfully coerced value is non-negative
when the cell has no minus sign; and the coercion is NOT total over
arbitrary strings: a cell parsing to an infinity makes `astype(int)` raise,
which surfaces as an uncaught error from `get_data`.  Every value of a
successfully returned table is an integer produced by a successful
`coerceCell`. -/
theorem C2_coercion (s : String) :
    (toNumericCell s = none → coerceCell s = some 0)
    ∧ (∀ q, toNumericCell s = some (.finite q) → coerceCell s = some (truncRat q))
    ∧ ((∀ c ∈ s.data, c ≠ '-') → ∀ v, coerceCell s = some v → 0 ≤ v)
    ∧ ((toNumericCell s = some .posInf ∨ toNumericCell s = some .negInf) →
        coerceCell s = none)
    ∧ (∀ tables ctx t, get_data tables ctx = .ok t →
        ∀ row ∈ t.rows, ∀ v ∈ row.2, ∃ cell, coerceCell cell = some v)
    ∧ (∀ tables ctx names, tables ≠ [] →
        assignedColumns ctx ((selectTable tables).ncols - 1) = .ok names →
        names.length = (selectTable tables).ncols - 1 →
        (∃ r ∈ (selectTable tables).rows, ∃ cell ∈ r.drop 2, coerceCell cell = none) →
        get_data tables ctx = .raisesValueError) := by
  refine ⟨?_, ?_, ?_, ?_, ?_, ?_⟩
  · intro hnone
    simp [coerceCell, hnone]
  · intro q htn
    simp [coerceCell, htn]
  · intro hno v hv
    rcases htn : toNumericCell s with _ | nv
    · simp only [coerceCell, htn, Option.some.injEq] at hv
      omega
    · cases nv with
      | finite q =>
          simp only [coerceCell, htn, Option.some.injEq] at hv
          rw [← hv]
          exact truncRat_nonneg (toNumericCell_nonneg hno htn)
      | posInf => simp [coerceCell, htn] at hv
      | negInf => simp [coerceCell, htn] at hv
  · rintro (h | h) <;> simp [coerceCell, h]
  · intro tables ctx t hok row hrow v hv
    obtain ⟨hrows, hall⟩ := get_data_rows hok
    rw [hrows] at hrow
    rcases List.mem_map.mp hrow with ⟨r, hr, rfl⟩
    simp only at hv
    rcases List.mem_map.mp hv with ⟨cell, hcell, rfl⟩
    have hs : (coerceCell cell).isSome = true :=
      List.all_eq_true.mp (List.all_eq_true.mp hall r hr) cell hcell
    refine ⟨cell, ?_⟩
    show coerceCell cell = some ((coerceCell cell).getD 0)
    rcases ho : coerceCell cell with _ | x
    · exact absurd (ho ▸ hs) (by simp)
    · rfl
  · intro tables ctx names hne hassign hlen hex
    have hfalse : ¬ ((selectTable tables).rows.all
        (fun r => (r.drop 2).all (fun s => (coerceCell s).isSome)) = true) := by
      intro hall
      obtain ⟨r, hr, cell, hcell, hnone⟩ := hex
      have h2 := List.all_eq_true.mp (List.all_eq_true.mp hall r hr) cell hcell
      rw [hnone] at h2
      exact absurd h2 (by simp)
    rw [get_data]
    simp only [List.isEmpty_iff, hne, if_false, hassign]
    rw [if_pos hlen, if_neg hfalse]

/-- Witness for C2 at concrete cells and a concrete table with an infinity
cell. -/
theorem C2_witness :
    (0 ≤ (1234 : Int)) ∧ coerceCell "" = some 0
    ∧ get_data [⟨4, [["1", "X", "inf", "7"]]⟩] .categoryMonthly =
        GetDataResult.raisesValueError :=
  ⟨(C2_coercion "1,234").2.2.1 (by decide) 1234 (by decide),
   (C2_coercion "").1 (by decide),
   (C2_coercion "x").2.2.2.2.2 [⟨4, [["1", "X", "inf", "7"]]⟩] .categoryMonthly
     ["Category", "Jan", "TOTAL"] (by decide) (by decide) (by decide)
     ⟨["1", "X", "inf", "7"], by decide, "inf", by decide, by decide⟩⟩

/-! ### Helper lemmas about the outer join -/

/-- Every row `joinMatches` emits carries the left row's key. -/
theorem key_of_mem_joinMatches {right : List (String × Int)} {p : String × Int}
    {j : String × Int × Int} (h : j ∈ joinMatches right p) : j.1 = p.1 := by
  simp only [joinMatches] at h
  split at h
  · rw [List.mem_singleton.mp h]
  · rcases List.mem_map.mp h with ⟨q, hq, rfl⟩
    rfl

/-- Keys absent from the left side never occur in the left-bind part. -/
theorem count_bindKeys_of_not_mem {left right : List (String × Int)} {k : String}
    (hk : k ∉ left.map Prod.fst) :
    ((left.flatMap (joinMatches right)).map (fun j => j.1)).count k = 0 := by
  rw [List.count_eq_zero]
  intro hmem
  rcases List.mem_map.mp hmem with ⟨j, hj, rfl⟩
  rcases List.mem_flatMap.mp hj with ⟨p, hp, hjp⟩
  exact hk (List.mem_map.mpr ⟨p, hp, (key_of_mem_joinMatches hjp).symm⟩)

/-- The filtered right side has as many rows as the key has occurrences. -/
theorem length_filter_key (right : List (String × Int)) (k : String) :
    (right.filter (fun q => q.1 == k)).length = (right.map Prod.fst).count k := by
  induction right with
  | nil => rfl
  | cons q rest ih =>
      by_cases hq : q.1 = k <;>
        simp [List.filter_cons, List.count_cons, beq_iff_eq, hq, ih]

/-- Counting a constant-mapped list. -/
theorem count_map_const {α : Type} (l : List α) (b : String) :
    ((l.map (fun _ => b)).count b) = l.length := by
  induction l with
  | nil => rfl
  | cons x xs ih => simp [List.count_cons, ih]

/-- With duplicate-free keys on both sides, a key present on the left occurs
exactly once among the keys of the left-bind part. -/
theorem count_bindKeys_of_mem {right : List (String × Int)} {k : String}
    (hr : (right.map Prod.fst).Nodup) :
    ∀ {left : List (String × Int)}, (left.map Prod.fst).Nodup → k ∈ left.map Prod.fst →
      ((left.flatMap (joinMatches right)).map (fun j => j.1)).count k = 1 := by
  intro left
  induction left with
  | nil => intro _ hk; simp at hk
  | cons p rest ih =>
      intro hnd hk
      rw [List.map_cons, List.nodup_cons] at hnd
      rw [List.map_cons] at hk
      rw [List.flatMap_cons, List.map_append, List.count_append]
      rcases List.mem_cons.mp hk with hk1 | hk2
      · have h2 : ((rest.flatMap (joinMatches right)).map (fun j => j.1)).count k = 0 :=
          count_bindKeys_of_not_mem (hk1 ▸ hnd.1)
        have h1 : ((joinMatches right p).map (fun j => j.1)).count k = 1 := by
          subst hk1
          simp only [joinMatches]
          split
          · simp
          · rename_i hne
            have hle : (right.filter (fun q => q.1 == p.1)).length ≤ 1 := by
              rw [length_filter_key]
              exact List.nodup_iff_count_le_one.mp hr p.1
            have hpos : 0 < (right.filter (fun q => q.1 == p.1)).length := by
              rcases List.isEmpty_iff.not.mp hne |> List.length_pos.mpr with h
              exact h
            rw [List.map_map,
              show ((fun j => (j : String × Int × Int).1) ∘ fun q : String × Int =>
                (p.1, p.2, q.2)) = (fun _ => p.1) from rfl,
              count_map_const]
            omega
        omega
      · have hpk : k ≠ p.1 := fun h => hnd.1 (h ▸ hk2)
        have h1 : ((joinMatches right p).map (fun j => j.1)).count k = 0 := by
          rw [List.count_eq_zero]
          intro hmem
          rcases List.mem_map.mp hmem with ⟨j, hj, rfl⟩
          exact hpk (key_of_mem_joinMatches hj)
        have h2 := ih hnd.2 hk2
        omega

/-- The keys of the right-only rows are the keys of the filtered right side. -/
theorem rightOnly_keys (left right : List (String × Int)) :
    ((right.filter (fun q => left.all (fun p => !(p.1 == q.1)))).map
        (fun q => ((q.1, 0, q.2) : String × Int × Int))).map (fun j => j.1) =
      (right.filter (fun q => left.all (fun p => !(p.1 == q.1)))).map (fun q => q.1) := by
  rw [List.map_map]
  rfl

/-- Keys already on the left never survive the right-only filter. -/
theorem count_filteredKeys_of_mem_left {left right : List (String × Int)} {k : String}
    (hk : k ∈ left.map Prod.fst) :
    ((right.filter (fun q => left.all (fun p => !(p.1 == q.1)))).map
      (fun q => q.1)).count k = 0 := by
  rw [List.count_eq_zero]
  intro hmem
  rcases List.mem_map.mp hmem with ⟨q, hq, hqk⟩
  rcases List.mem_filter.mp hq with ⟨hqr, hall⟩
  rcases List.mem_map.mp hk with ⟨p, hp, hpk⟩
  have hne := List.all_eq_true.mp hall p hp
  rw [Bool.not_eq_true', beq_eq_false_iff_ne] at hne
  exact hne (hpk.trans hqk.symm)

/-- For keys not on the left, the right-only filter keeps every occurrence. -/
theorem count_filteredKeys_of_not_mem_left {left : List (String × Int)} {k : String}
    (hk : k ∉ left.map Prod.fst) (right : List (String × Int)) :
    ((right.filter (fun q => left.all (fun p => !(p.1 == q.1)))).map
      (fun q => q.1)).count k = (right.map Prod.fst).count k := by
  induction right with
  | nil => rfl
  | cons q rest ih =>
      rw [List.filter_cons]
      by_cases hq : q.1 = k
      · have hall : (left.all (fun p => !(p.1 == q.1))) = true := by
          rw [List.all_eq_true]
          intro p hp
          rw [Bool.not_eq_true', beq_eq_false_iff_ne]
          intro hpq
          exact hk (List.mem_map.mpr ⟨p, hp, hpq.trans hq⟩)
        rw [if_pos hall]
        simp [List.count_cons, beq_iff_eq, hq, ih]
      · by_cases hkeep : (left.all (fun p => !(p.1 == q.1))) = true
        · rw [if_pos hkeep]
          simp [List.count_cons, beq_iff_eq, hq, ih]
        · rw [if_neg hkeep]
          simp [List.count_cons, beq_iff_eq, hq, ih]

/-- A left row whose key is absent on the right keeps its value and gets 0 on
the right. -/
theorem mem_outerJoin_left_default {left right : List (String × Int)} {kv : String × Int}
    (hkv : kv ∈ left) (hnr : kv.1 ∉ right.map Prod.fst) :
    (kv.1, kv.2, 0) ∈ outerJoin left right := by
  rw [outerJoin, List.mem_append]
  left
  rw [List.mem_flatMap]
  refine ⟨kv, hkv, ?_⟩
  have hms : right.filter (fun q => q.1 == kv.1) = [] := by
    rw [List.filter_eq_nil_iff]
    intro q hq
    simp only [beq_iff_eq]
    intro hqk
    exact hnr (List.mem_map.mpr ⟨q, hq, hqk⟩)
  simp [joinMatches, hms]

/-- A right row whose key is absent on the left is kept with 0 on the left. -/
theorem mem_outerJoin_right_default {left right : List (String × Int)} {kv : String × Int}
    (hkv : kv ∈ right) (hnl : kv.1 ∉ left.map Prod.fst) :
    (kv.1, 0, kv.2) ∈ outerJoin left right := by
  rw [outerJoin, List.mem_append]
  right
  rw [List.mem_map]
  refine ⟨kv, ?_, rfl⟩
  rw [List.mem_filter]
  refine ⟨hkv, ?_⟩
  rw [List.all_eq_true]
  intro p hp
  rw [Bool.not_eq_true', beq_eq_false_iff_ne]
  intro hpq
  exact hnl (List.mem_map.mpr ⟨p, hp, hpq⟩)

/-- Every joined row's key comes from one of the two sides. -/
theorem mem_outerJoin_keys {left right : List (String × Int)} {j : String × Int × Int}
    (hj : j ∈ outerJoin left right) :
    j.1 ∈ left.map Prod.fst ∨ j.1 ∈ right.map Prod.fst := by
  rw [outerJoin, List.mem_append] at hj
  rcases hj with hj | hj
  · rcases List.mem_flatMap.mp hj with ⟨p, hp, hjp⟩
    exact Or.inl (List.mem_map.mpr ⟨p, hp, (key_of_mem_joinMatches hjp).symm⟩)
  · rcases List.mem_map.mp hj with ⟨q, hq, rfl⟩
    exact Or.inr (List.mem_map.mpr ⟨q, (List.mem_filter.mp hq).1, rfl⟩)

/-! ### Helper lemmas for Quarter-over-Quarter -/

/-- The index-driven change-column loop pairs each list entry with its
immediate predecessor: it equals the zip of the tail with the list. -/
theorem range_map_getD_consecutive {α β : Type} (d : α) (f : α → α → β) :
    ∀ l : List α,
      (List.range (l.length - 1)).map (fun j => f (l.getD (j + 1) d) (l.getD j d)) =
        (l.tail.zip l).map (fun p => f p.1 p.2) := by
  have aux : ∀ (xs : List α) (x : α),
      (List.range xs.length).map (fun j => f (xs.getD j d) ((x :: xs).getD j d)) =
        (xs.zip (x :: xs)).map (fun p => f p.1 p.2) := by
    intro xs
    induction xs with
    | nil => intro x; rfl
    | cons y ys ih =>
        intro x
        rw [List.length_cons, List.range_succ_eq_map, List.map_cons, List.map_map,
          List.zip_cons_cons, List.map_cons]
        congr 1
        exact ih y
  intro l
  cases l with
  | nil => rfl
  | cons x xs =>
      rw [List.length_cons, Nat.add_sub_cancel, List.tail_cons]
      exact aux xs x

/-- A successful month-wise column assignment pins down the header shape. -/
theorem monthlyColumns_ok {key : String} {n : Nat} {names : List String}
    (h : monthlyColumns key n = .ok names) :
    2 < n ∧ names = key :: (monthNames.take (n - 2) ++ ["TOTAL"]) := by
  rw [monthlyColumns] at h
  split at h
  · exact ⟨by assumption, (ColumnAssignment.ok.inj h).symm⟩
  · exact absurd h (by simp)

/-- The header of every table `get_data` returns is the assigned one. -/
theorem get_data_header {tables : List RawTable} {ctx : SelectionContext} {t : NormalizedTable}
    (hok : get_data tables ctx = .ok t) :
    assignedColumns ctx ((selectTable tables).ncols - 1) = .ok t.header := by
  rw [get_data] at hok
  split at hok
  · exact absurd hok (by simp)
  · split at hok
    case h_1 names heq =>
      split at hok
      · split at hok
        · obtain rfl := GetDataResult.ok.inj hok
          exact heq
        · exact absurd hok (by simp)
      · exact absurd hok (by simp)
    case h_2 => exact absurd hok (by simp)

/-- Every month-wise normalized table has a "Jan" column. -/
theorem monthly_table_has_jan {tables : List RawTable} {ctx : SelectionContext}
    {t : NormalizedTable} (hm : ctx.isMonthly = true) (hok : get_data tables ctx = .ok t) :
    t.hasCol "Jan" = true := by
  have hhdr := get_data_header hok
  have hshape : 2 < (selectTable tables).ncols - 1 ∧
      t.header = "Category" :: (monthNames.take ((selectTable tables).ncols - 1 - 2) ++ ["TOTAL"])
      ∨ 2 < (selectTable tables).ncols - 1 ∧
      t.header = "Manufacturer" ::
        (monthNames.take ((selectTable tables).ncols - 1 - 2) ++ ["TOTAL"]) := by
    cases ctx with
    | vehicleClass vt => simp [SelectionContext.isMonthly] at hm
    | manufacturer vt => simp [SelectionContext.isMonthly] at hm
    | categoryMonthly =>
        rw [assignedColumns] at hhdr
        exact Or.inl ⟨(monthlyColumns_ok hhdr).1, (monthlyColumns_ok hhdr).2⟩
    | manufacturerMonthly =>
        rw [assignedColumns] at hhdr
        exact Or.inr ⟨(monthlyColumns_ok hhdr).1, (monthlyColumns_ok hhdr).2⟩
  have hjan : ∀ key : String,
      2 < (selectTable tables).ncols - 1 →
      t.header = key :: (monthNames.take ((selectTable tables).ncols - 1 - 2) ++ ["TOTAL"]) →
      "Jan" ∈ t.header := by
    intro key hn ht
    obtain ⟨k, hk⟩ : ∃ k, (selectTable tables).ncols - 1 - 2 = k + 1 :=
      ⟨(selectTable tables).ncols - 1 - 3, by omega⟩
    rw [ht, hk]
    rw [show monthNames.take (k + 1) =
      "Jan" :: (["Feb", "Mar", "Apr", "May", "Jun", "Jul", "Aug", "Sep", "Oct",
        "Nov", "Dec"].take k) from rfl]
    exact List.mem_cons_of_mem _ (List.mem_append_left _ (List.mem_cons_self _ _))
  rw [NormalizedTable.hasCol, List.elem_iff]
  rcases hshape with ⟨hn, ht⟩ | ⟨hn, ht⟩
  · exact hjan "Category" hn ht
  · exact hjan "Manufacturer" hn ht

/-- C6: a quarter is included in the QoQ output exactly when one of its
constituent months is a column of the table, its column is the row-wise sum
of the present constituent months, each change column compares an included
quarter against the immediately preceding included quarter, fewer than two
included quarters yield the insufficient-data outcome, and every month-wise
normalized table reaching this section has a month column (so the two-branch
split is exhaustive in the app). -/
theorem C6_qoq_structure (t : NormalizedTable) :
    (∀ q ∈ quarterDefs, (q ∈ includedQuarters t ↔ ∃ m ∈ q.2, t.hasCol m = true))
    ∧ (∀ cols changes, qoq t = .table cols changes →
        cols = (includedQuarters t).map
          (fun q => (q.1, t.rows.map (fun r => quarterValue t q.2 r)))
        ∧ changes = ((includedQuarters t).tail.zip (includedQuarters t)).map
            (fun p => (p.1.1, p.2.1,
              t.rows.map (fun r => changeCell (quarterValue t p.1.2 r) (quarterValue t p.2.2 r))))
        ∧ 1 < (includedQuarters t).length)
    ∧ ((monthNames.any (fun m => t.hasCol m)) = true → (includedQuarters t).length ≤ 1 →
        qoq t = .insufficient)
    ∧ (∀ tables ctx u, ctx.isMonthly = true → get_data tables ctx = .ok u →
        (monthNames.any (fun m => u.hasCol m)) = true) := by
  refine ⟨?_, ?_, ?_, ?_⟩
  · intro q hq
    rw [includedQuarters, List.mem_filter]
    simp only [hq, true_and, Bool.not_eq_true', List.isEmpty_eq_false, Ne,
      List.filter_eq_nil_iff]
    constructor
    · intro hne
      by_contra hno
      push_neg at hno
      exact hne (fun m hm => by simp [hno m hm])
    · rintro ⟨m, hm, hcol⟩ hall
      exact absurd hcol (by simpa using hall m hm)
  · intro cols changes htab
    rw [qoq] at htab
    split at htab
    · split at htab
      · obtain ⟨rfl, rfl⟩ := QoQOutcome.table.inj htab.symm
        refine ⟨rfl, ?_, by assumption⟩
        exact range_map_getD_consecutive ("", [])
          (fun curr prev => (curr.1, prev.1, t.rows.map
            (fun r => changeCell (quarterValue t curr.2 r) (quarterValue t prev.2 r))))
          (includedQuarters t)
      · exact absurd htab (by simp)
    · exact absurd htab (by simp)
  · intro hmonth hle
    rw [qoq, if_pos hmonth, if_neg (by omega)]
  · intro tables ctx u hm hok
    rw [List.any_eq_true]
    exact ⟨"Jan", by decide, monthly_table_has_jan hm hok⟩

/-- Witness for C6: a table with only a Q1 month present is insufficient,
and its Q1 is included while Q2 is not. -/
theorem C6_witness :
    qoq ⟨["Category", "Jan", "TOTAL"], [("X", [1, 2])]⟩ = QoQOutcome.insufficient :=
  (C6_qoq_structure ⟨["Category", "Jan", "TOTAL"], [("X", [1, 2])]⟩).2.2.1
    (by decide) (by decide)

/-- C5 counterexample: a YoY join whose current-year table lists the category
"A" twice produces TWO joined rows for "A", so a category does not appear
exactly once in the result. -/
theorem C5_counterexample :
    (yoyCompare ⟨["Category", "TOTAL"], [("A", [1]), ("A", [2])]⟩
      ⟨["Category", "TOTAL"], [("A", [5])]⟩ none).rowKeys = ["A", "A"]
    ∧ (["A", "A"].count "A") ≠ 1 := by
  constructor
  · rfl
  · decide

/-- C5 (amended): when each side's category column is duplicate-free, the
outer join used by the YoY and January-YoM comparisons is complete: every
category appearing in either side appears exactly once in the result (keys
compared by string equality), a category missing from the right keeps its
left value with 0 on the right, a category missing from the left gets 0 on
the left, and no other categories appear.  With duplicated keys a category
can appear more than once (see the counterexample). -/
theorem C5_outer_join (left right : List (String × Int))
    (hl : (left.map Prod.fst).Nodup) (hr : (right.map Prod.fst).Nodup) :
    (∀ k, (k ∈ left.map Prod.fst ∨ k ∈ right.map Prod.fst) →
      ((outerJoin left right).map (fun j => j.1)).count k = 1)
    ∧ (∀ kv ∈ left, kv.1 ∉ right.map Prod.fst → (kv.1, kv.2, 0) ∈ outerJoin left right)
    ∧ (∀ kv ∈ right, kv.1 ∉ left.map Prod.fst → (kv.1, 0, kv.2) ∈ outerJoin left right)
    ∧ (∀ j ∈ outerJoin left right, j.1 ∈ left.map Prod.fst ∨ j.1 ∈ right.map Prod.fst) := by
  refine ⟨?_, fun kv h1 h2 => mem_outerJoin_left_default h1 h2,
    fun kv h1 h2 => mem_outerJoin_right_default h1 h2, fun j hj => mem_outerJoin_keys hj⟩
  intro k hk
  rw [outerJoin, List.map_append, List.count_append, rightOnly_keys]
  by_cases hkl : k ∈ left.map Prod.fst
  · rw [count_bindKeys_of_mem hr hl hkl, count_filteredKeys_of_mem_left hkl]
  · rcases hk with hk | hkr
    · exact absurd hk hkl
    · rw [count_bindKeys_of_not_mem hkl, count_filteredKeys_of_not_mem_left hkl right,
        Nat.zero_add]
      exact List.count_eq_one_of_mem hr hkr

/-- Witness for C5 at concrete duplicate-free inputs. -/
theorem C5_witness :
    (("A", 1, 0) : String × Int × Int) ∈ outerJoin [("A", 1)] [("B", 2)] :=
  (C5_outer_join [("A", 1)] [("B", 2)] (by decide) (by decide)).2.1 ("A", 1)
    (by decide) (by decide)

/-- Witness for C7 at a concrete pair list. -/
theorem C7_witness :
    compTable [("A", 2, 3)] = CompareOutcome.table (compRows [("A", 2, 3)])
      (([("A", 2, 3)].map (fun p => p.2.2)).sum) (([("A", 2, 3)].map (fun p => p.2.1)).sum)
      (.pct ((((([("A", 2, 3)].map (fun p => p.2.2)).sum : Int) : ℚ) -
          ((([("A", 2, 3)].map (fun p => p.2.1)).sum : Int) : ℚ)) /
        ((([("A", 2, 3)].map (fun p => p.2.1)).sum : Int) : ℚ) * 100)) :=
  (C7_overall_from_sums [("A", 2, 3)] (by decide)).1

end Vahan
